import Mathlib

/-!
Shallow embedding of `src/AuthContext.tsx` (Bhoos/auth): the `AuthManager`
class coordinating pluggable authentication providers, plus the hook-style
accessors.

Modelling conventions:
* JS object references are modelled by an `id : Nat` field; structural
  equality of the Lean values corresponds to JS reference equality (`===`)
  under the assumption that distinct objects carry distinct ids.
* The JS `Map<string, AuthProvider>` is an association list with
  `Map.set` replace-in-place / append semantics; the JS `Set<string>` is a
  list with add-if-absent semantics, both preserving insertion order.
* A settled JS `Promise` (or a synchronous return/throw) is a `Settled α`:
  `resolved` carries the value, `rejected` carries the error message.
* The `activeProvider` field is `undefined` initially, may later hold a
  provider object or the value `null`; these three JS states are the
  constructors of `ActiveState`.
* Listener functions (`Dispatch<AuthProvider>`) are modelled by their
  reference id (`Nat`); a notification is the event pair
  `(listener id, argument passed)`, and operations return the list of
  notification events they emit, in emission order.
-/

namespace Auth

/-- Outcome of a settled promise or a synchronous call that may throw. -/
inductive Settled (α : Type) where
  | resolved (a : α)
  | rejected (e : String)
deriving DecidableEq, Repr

/-- `AuthProfile` record from the source. -/
structure AuthProfile where
  id : String
  type : String
  name : String
  email : String
  mobile : Option String := none
  picture : String
  token : String
deriving DecidableEq, Repr

/-- An `AuthProvider` object: `id` models the JS object reference;
`profile` is what `getProfile()` returns; `loginResult` is what the
promise returned by `login()` settles to. -/
structure AuthProvider where
  id : Nat
  type : String
  profile : AuthProfile
  loginResult : Settled AuthProfile
deriving DecidableEq, Repr

/-- The payload handed to a validation callback (`LoginPayload`). -/
structure LoginPayload where
  type : String
  token : String
deriving DecidableEq, Repr

/-- Behaviour of a validation callback: what the promise it returns
settles to, as a function of its arguments. -/
def Validation : Type := LoginPayload → AuthProfile → Settled Unit

/-- The three JS states of the `activeProvider` field:
`undefined` (never assigned), the object `null`, or a provider object. -/
inductive ActiveState where
  | unset
  | settledNull
  | active (p : AuthProvider)
deriving DecidableEq, Repr

/-- JS strict equality (`===`) between the `activeProvider` field and an
`AuthProvider | null` argument. -/
def refEq : ActiveState → Option AuthProvider → Bool
  | .unset, _ => false
  | .settledNull, none => true
  | .settledNull, some _ => false
  | .active _, none => false
  | .active q, some p => decide (q = p)

/-- Truthiness of the `activeProvider` field: only a provider object is
truthy; `undefined` and `null` are falsy. -/
def isTruthy : ActiveState → Bool
  | .active _ => true
  | _ => false

/-- `Map.has` on the provider registry. -/
def mapHas (m : List (String × AuthProvider)) (k : String) : Bool :=
  m.any (fun kv => decide (kv.1 = k))

/-- `Map.get` on the provider registry. -/
def mapGet (m : List (String × AuthProvider)) (k : String) : Option AuthProvider :=
  (m.find? (fun kv => decide (kv.1 = k))).map Prod.snd

/-- `Map.set`: replace in place when the key is present, append otherwise. -/
def mapSet (m : List (String × AuthProvider)) (k : String) (v : AuthProvider) :
    List (String × AuthProvider) :=
  if mapHas m k then m.map (fun kv => if kv.1 = k then (k, v) else kv)
  else m ++ [(k, v)]

/-- `Map.delete` on the provider registry. -/
def mapDelete (m : List (String × AuthProvider)) (k : String) :
    List (String × AuthProvider) :=
  m.filter (fun kv => decide (kv.1 ≠ k))

/-- `Set.add`: no-op when already present, append otherwise. -/
def setAdd (s : List String) (t : String) : List String :=
  if t ∈ s then s else s ++ [t]

/-- `Set.delete`. -/
def setDelete (s : List String) (t : String) : List String :=
  s.filter (fun x => decide (x ≠ t))

/-- A notification event: (listener reference, argument it was called with). -/
abbrev Event : Type := Nat × Option AuthProvider

/-- The mutable state of the `AuthManager` class. -/
structure AuthManager where
  providers : List (String × AuthProvider) := []
  listeners : List Nat := []
  initializing : List String := []
  activeProvider : ActiveState := .unset
deriving DecidableEq, Repr

/-- A fresh manager (`new AuthManager()`) whose subscriber list has been
set to `L` (each element the reference of one subscribed dispatch). -/
def AuthManager.init (L : List Nat) : AuthManager :=
  { providers := [], listeners := L, initializing := [], activeProvider := .unset }

/-- `getActive()`:
`this.activeProvider || ((providers.size === 0 || initializing.size !== 0) ? undefined : null)`. -/
def AuthManager.getActive (s : AuthManager) : ActiveState :=
  match s.activeProvider with
  | .active p => .active p
  | _ =>
    if s.providers.length = 0 ∨ s.initializing.length ≠ 0 then .unset
    else .settledNull

/-- `activate(provider, validation?)`: returns the state after the call,
the notification events emitted, and what the returned promise settles to.
When a validation callback is supplied and the provider argument is
`null`, the source would crash reading `null.getProfile()`; that path is
the final `rejected` case (it is never exercised by the source). -/
def AuthManager.activate (s : AuthManager) (p : Option AuthProvider)
    (v : Option Validation) : AuthManager × List Event × Settled Unit :=
  if refEq s.activeProvider p then (s, [], .resolved ())
  else
    let newActive : ActiveState :=
      match p with
      | some q => .active q
      | none => .settledNull
    let committed : AuthManager × List Event × Settled Unit :=
      ({ s with activeProvider := newActive },
        s.listeners.map (fun l => (l, p)), .resolved ())
    match v with
    | none => committed
    | some vf =>
      match p with
      | none => (s, [], .rejected "TypeError: null has no getProfile")
      | some prov =>
        match vf { type := prov.type, token := prov.profile.token } prov.profile with
        | .resolved _ => committed
        | .rejected e => (s, [], .rejected e)

/-- `subscribe(dispatch)`: append to the listener list. -/
def AuthManager.subscribe (s : AuthManager) (d : Nat) : AuthManager :=
  { s with listeners := s.listeners ++ [d] }

/-- The closure returned by `subscribe`:
`idx = listeners.indexOf(dispatch); if (idx >= 0) listeners.splice(idx)`.
`splice(idx)` with a single argument deletes every element from `idx` to
the end of the array. -/
def AuthManager.unsubscribe (s : AuthManager) (d : Nat) : AuthManager :=
  let idx := s.listeners.indexOf d
  if idx < s.listeners.length then { s with listeners := s.listeners.take idx }
  else s

/-- `register(type)`: throws when `type` is initializing or registered,
otherwise adds `type` to the initializing set (and hands back the
`setup`/`clear` closures, modelled below as `AuthManager.setup` and
`AuthManager.clear` applied to the same `type`). -/
def AuthManager.register (s : AuthManager) (t : String) : Settled AuthManager :=
  if t ∈ s.initializing ∨ mapHas s.providers t = true then
    .rejected s!"Auth Provider {t} is already registered"
  else
    .resolved { s with initializing := s.initializing ++ [t] }

/-- The `setup` closure returned by `register(t)`:
inserts the provider, clears the initializing flag, then either activates
the provider (`active = true`) or settles to `null` when nothing else is
pending and nothing is active. -/
def AuthManager.setup (s : AuthManager) (t : String) (p : AuthProvider)
    (active : Bool) (v : Option Validation) :
    AuthManager × List Event × Settled Unit :=
  let s1 : AuthManager :=
    { s with providers := mapSet s.providers t p,
             initializing := setDelete s.initializing t }
  if active then s1.activate (some p) v
  else if s1.initializing.length = 0 && !(isTruthy s1.activeProvider) then
    s1.activate none none
  else (s1, [], .resolved ())

/-- The `clear` closure returned by `register(t)`: drops the initializing
flag and any registry entry for `t` (logging `err` is a console side
effect, not modelled), then settles to `null` when nothing else is pending
and nothing is active. -/
def AuthManager.clear (s : AuthManager) (t : String) (err : Option String) :
    AuthManager × List Event :=
  let s1 : AuthManager :=
    { s with initializing := setDelete s.initializing t,
             providers := mapDelete s.providers t }
  if s1.initializing.length = 0 && !(isTruthy s1.activeProvider) then
    let r := s1.activate none none
    (r.1, r.2.1)
  else (s1, [])

/-- `get(type)`: pure registry lookup. -/
def AuthManager.get (s : AuthManager) (t : String) : Option AuthProvider :=
  mapGet s.providers t

/-- The callable returned by `useAuthLogin(type)`: looks the provider up,
rejects with a descriptive error when absent, otherwise settles to
whatever the provider's `login()` settles to. The second component is the
manager state when the callable returns. -/
def authLoginTrigger (t : String) (s : AuthManager) :
    Settled AuthProfile × AuthManager :=
  match mapGet s.providers t with
  | none => (.rejected s!"No provider found for {t}", s)
  | some p => (p.loginResult, s)

/-- One atomic `register`/`setup`/`clear` call in a scripted sequence
(`setup` with no validation callback, as the invariant claims quantify
over). -/
inductive Op where
  | register (t : String)
  | setup (t : String) (p : AuthProvider) (active : Bool)
  | clear (t : String) (err : Option String)
deriving DecidableEq, Repr

/-- Execute one scripted call: a `register` that throws leaves the state
unchanged (the exception goes to the caller). -/
def AuthManager.step (s : AuthManager) : Op → AuthManager × List Event
  | .register t =>
    match s.register t with
    | .resolved s' => (s', [])
    | .rejected _ => (s, [])
  | .setup t p active =>
    let r := s.setup t p active none
    (r.1, r.2.1)
  | .clear t err => s.clear t err

/-- Execute a scripted sequence of calls, accumulating the notification
events in order. -/
def AuthManager.run (s : AuthManager) : List Op → AuthManager × List Event
  | [] => (s, [])
  | op :: ops =>
    let r := s.step op
    let r2 := r.1.run ops
    (r2.1, r.2 ++ r2.2)

/-- `true` for every scripted call except `setup` with `active = true`
(the only scripted call that can activate a provider). -/
def noActivation : Op → Bool
  | .setup _ _ true => false
  | _ => true

/-- A concrete profile used in witnesses and counterexamples. -/
def guestProfile : AuthProfile :=
  { id := "g1", type := "guest", name := "Guest", email := "guest@example.com",
    mobile := none, picture := "p.png", token := "tok-g" }

/-- A concrete provider used in witnesses and counterexamples. -/
def guestProvider : AuthProvider :=
  { id := 1, type := "guest", profile := guestProfile,
    loginResult := .resolved guestProfile }

/-- A second concrete provider. -/
def ssoProvider : AuthProvider :=
  { id := 2, type := "sso",
    profile := { id := "s1", type := "sso", name := "S", email := "s@example.com",
                 mobile := none, picture := "s.png", token := "tok-s" },
    loginResult := .rejected "network down" }

/-- The registration-lifecycle invariant claimed in the spec: the
registry holds no two entries for the same type key, and no key is both
initializing and registered. -/
def RegInv (s : AuthManager) : Prop :=
  (s.providers.map Prod.fst).Nodup ∧
  ∀ t, t ∈ s.initializing → mapHas s.providers t = false

/-- A manager with only the guest provider registered, for witnesses. -/
def sGuest : AuthManager :=
  { AuthManager.init [] with providers := [("guest", guestProvider)] }

/-! Helper lemmas about the registry / set primitives and `activate`. -/

theorem mapHas_eq_true_iff (m : List (String × AuthProvider)) (k : String) :
    mapHas m k = true ↔ k ∈ m.map Prod.fst := by
  simp [mapHas, List.any_eq_true, List.mem_map]

theorem mapHas_eq_false_iff (m : List (String × AuthProvider)) (k : String) :
    mapHas m k = false ↔ k ∉ m.map Prod.fst := by
  rw [← mapHas_eq_true_iff]
  cases mapHas m k <;> simp

theorem mapSet_keys (m : List (String × AuthProvider)) (k : String) (v : AuthProvider) :
    (mapSet m k v).map Prod.fst =
      if mapHas m k then m.map Prod.fst else m.map Prod.fst ++ [k] := by
  unfold mapSet
  by_cases h : mapHas m k = true
  · rw [if_pos h, if_pos h, List.map_map]
    apply List.map_congr_left
    intro kv _
    by_cases hk : kv.1 = k <;> simp [hk, Function.comp]
  · rw [if_neg h, if_neg h]
    simp

theorem mapDelete_sublist (m : List (String × AuthProvider)) (k : String) :
    (mapDelete m k).Sublist m :=
  List.filter_sublist m

theorem mem_setDelete (l : List String) (t x : String) :
    x ∈ setDelete l t ↔ x ∈ l ∧ x ≠ t := by
  simp [setDelete, List.mem_filter]

theorem mapHas_mapDelete_false (m : List (String × AuthProvider)) (k t : String)
    (h : mapHas m t = false) : mapHas (mapDelete m k) t = false := by
  rw [mapHas_eq_false_iff] at h ⊢
  intro hmem
  exact h (((mapDelete_sublist m k).map Prod.fst).mem hmem)

/-- `activate` only writes the `activeProvider` field: registry,
initializing set and listener list are untouched. -/
theorem activate_fields (s : AuthManager) (p : Option AuthProvider)
    (v : Option Validation) :
    (s.activate p v).1.providers = s.providers ∧
    (s.activate p v).1.initializing = s.initializing ∧
    (s.activate p v).1.listeners = s.listeners := by
  by_cases h : refEq s.activeProvider p = true
  · simp [AuthManager.activate, h]
  · rw [Bool.not_eq_true] at h
    cases v with
    | none => simp [AuthManager.activate, h]
    | some vf =>
      cases p with
      | none => simp [AuthManager.activate, h]
      | some prov =>
        cases hr : vf { type := prov.type, token := prov.profile.token } prov.profile with
        | resolved a => simp [AuthManager.activate, h, hr]
        | rejected e => simp [AuthManager.activate, h, hr]

/-- `activate(null)` from the never-assigned state commits: the active
field becomes `null` and every listener is notified with `null`. -/
theorem activate_null_unset (s : AuthManager)
    (h : s.activeProvider = ActiveState.unset) :
    s.activate none none =
      ({ s with activeProvider := ActiveState.settledNull },
        s.listeners.map (fun l => (l, (none : Option AuthProvider))),
        .resolved ()) := by
  simp [AuthManager.activate, refEq, h]

/-- `activate(null)` when the field already holds `null` is a no-op
(`null === null`). -/
theorem activate_null_settled (s : AuthManager)
    (h : s.activeProvider = ActiveState.settledNull) :
    s.activate none none = (s, [], .resolved ()) := by
  simp [AuthManager.activate, refEq, h]

theorem mapSet_nodup (m : List (String × AuthProvider)) (k : String)
    (v : AuthProvider) (hnd : (m.map Prod.fst).Nodup) :
    ((mapSet m k v).map Prod.fst).Nodup := by
  rw [mapSet_keys]
  split
  · exact hnd
  · next h =>
    rw [Bool.not_eq_true] at h
    rw [List.nodup_append]
    refine ⟨hnd, List.nodup_singleton k, ?_⟩
    intro x hx hk
    rw [List.mem_singleton] at hk
    subst hk
    exact (mapHas_eq_false_iff m x).mp h hx

theorem mapHas_mapSet_false (m : List (String × AuthProvider)) (k t' : String)
    (v : AuthProvider) (h : mapHas m t' = false) (hne : t' ≠ k) :
    mapHas (mapSet m k v) t' = false := by
  rw [mapHas_eq_false_iff] at h ⊢
  rw [mapSet_keys]
  split
  · exact h
  · intro hmem
    rcases List.mem_append.mp hmem with h1 | h1
    · exact h h1
    · exact hne (List.mem_singleton.mp h1)

theorem mapDelete_nodup (m : List (String × AuthProvider)) (k : String)
    (hnd : (m.map Prod.fst).Nodup) :
    ((mapDelete m k).map Prod.fst).Nodup :=
  List.Nodup.sublist ((mapDelete_sublist m k).map Prod.fst) hnd

theorem RegInv_step (s : AuthManager) (op : Op) (h : RegInv s) :
    RegInv (s.step op).1 := by
  obtain ⟨hnd, hdisj⟩ := h
  cases op with
  | register t =>
    by_cases hc : t ∈ s.initializing ∨ mapHas s.providers t = true
    · simp only [AuthManager.step, AuthManager.register, if_pos hc]
      exact ⟨hnd, hdisj⟩
    · simp only [AuthManager.step, AuthManager.register, if_neg hc]
      refine ⟨hnd, fun t' ht' => ?_⟩
      rcases List.mem_append.mp ht' with h1 | h1
      · exact hdisj t' h1
      · rw [List.mem_singleton] at h1
        subst h1
        cases hm : mapHas s.providers t' with
        | false => rfl
        | true => exact absurd (Or.inr hm) hc
  | setup t p active =>
    have hfields : (s.step (Op.setup t p active)).1.providers = mapSet s.providers t p ∧
        (s.step (Op.setup t p active)).1.initializing = setDelete s.initializing t := by
      simp only [AuthManager.step, AuthManager.setup]
      split
      · exact ⟨(activate_fields _ _ _).1, (activate_fields _ _ _).2.1⟩
      · split
        · exact ⟨(activate_fields _ _ _).1, (activate_fields _ _ _).2.1⟩
        · exact ⟨rfl, rfl⟩
    rw [RegInv, hfields.1, hfields.2]
    refine ⟨mapSet_nodup _ _ _ hnd, fun t' ht' => ?_⟩
    obtain ⟨hmem, hne⟩ := (mem_setDelete _ _ _).mp ht'
    exact mapHas_mapSet_false _ _ _ _ (hdisj t' hmem) hne
  | clear t err =>
    have hfields : (s.step (Op.clear t err)).1.providers = mapDelete s.providers t ∧
        (s.step (Op.clear t err)).1.initializing = setDelete s.initializing t := by
      simp only [AuthManager.step, AuthManager.clear]
      split
      · exact ⟨(activate_fields _ _ _).1, (activate_fields _ _ _).2.1⟩
      · exact ⟨rfl, rfl⟩
    rw [RegInv, hfields.1, hfields.2]
    refine ⟨mapDelete_nodup _ _ hnd, fun t' ht' => ?_⟩
    obtain ⟨hmem, _⟩ := (mem_setDelete _ _ _).mp ht'
    exact mapHas_mapDelete_false _ _ _ (hdisj t' hmem)

theorem RegInv_run (s : AuthManager) (ops : List Op) (h : RegInv s) :
    RegInv (s.run ops).1 := by
  induction ops generalizing s with
  | nil => exact h
  | cons op ops ih => exact ih _ (RegInv_step s op h)

/-- C1: `getActive()` returns the active provider when one is set;
otherwise it returns `undefined` when any registration is initializing or
the provider registry is empty; otherwise it returns `null`. -/
theorem C1_getActive_characterization (s : AuthManager) :
    (∀ p, s.activeProvider = ActiveState.active p →
      s.getActive = ActiveState.active p) ∧
    ((∀ p, s.activeProvider ≠ ActiveState.active p) →
      ((s.providers = [] ∨ s.initializing ≠ []) → s.getActive = ActiveState.unset) ∧
      ((s.providers ≠ [] ∧ s.initializing = []) → s.getActive = ActiveState.settledNull)) := by
  constructor
  · intro p hp
    simp [AuthManager.getActive, hp]
  · intro hnp
    have hgen : s.getActive =
        (if s.providers.length = 0 ∨ s.initializing.length ≠ 0 then
          ActiveState.unset else ActiveState.settledNull) := by
      cases hs : s.activeProvider with
      | active p => exact absurd hs (hnp p)
      | unset => simp [AuthManager.getActive, hs]
      | settledNull => simp [AuthManager.getActive, hs]
    constructor
    · intro hcond
      rw [hgen, if_pos]
      rcases hcond with h | h
      · exact Or.inl (by simp [h])
      · exact Or.inr (fun hh => h (List.length_eq_zero.mp hh))
    · rintro ⟨h1, h2⟩
      rw [hgen, if_neg]
      push_neg
      exact ⟨fun hh => h1 (List.length_eq_zero.mp hh), by simp [h2]⟩

/-- Witness for C1 at a concrete state: a fresh manager (empty registry,
nothing initializing, nothing active) yields the unresolved marker. -/
theorem C1_witness :
    AuthManager.getActive (AuthManager.init []) = ActiveState.unset :=
  ((C1_getActive_characterization (AuthManager.init [])).2
    (fun _ h => ActiveState.noConfusion h)).1 (Or.inl rfl)

/-- C3: when the validation callback is invoked (the provider is not
already active) and rejects, `activate` propagates the rejection, the
state — in particular the previously active provider — is unchanged, and
zero notifications are issued. -/
theorem C3_validation_rejection (s : AuthManager) (p : AuthProvider)
    (v : Validation) (e : String)
    (hact : refEq s.activeProvider (some p) = false)
    (hrej : v { type := p.type, token := p.profile.token } p.profile = .rejected e) :
    s.activate (some p) (some v) = (s, [], .rejected e) := by
  simp [AuthManager.activate, hact, hrej]

/-- Witness for C3: activating a provider with a rejecting validation
callback on a fresh manager rejects and leaves everything unchanged. -/
theorem C3_witness :
    AuthManager.activate (AuthManager.init [5]) (some guestProvider)
      (some (fun _ _ => Settled.rejected "invalid token")) =
      (AuthManager.init [5], [], Settled.rejected "invalid token") :=
  C3_validation_rejection (AuthManager.init [5]) guestProvider
    (fun _ _ => Settled.rejected "invalid token") "invalid token" (by decide) rfl

/-- C4: `activate(p)` is a no-op (state unchanged, no notification) when
`p` is already the active provider, with or without a validation
callback; hence of two consecutive `activate(p)` calls the second changes
nothing and emits nothing, so subscribers are notified at most once. -/
theorem C4_activate_idempotent (s : AuthManager) (p : AuthProvider)
    (v : Option Validation) :
    (refEq s.activeProvider (some p) = true →
      s.activate (some p) v = (s, [], .resolved ())) ∧
    ((s.activate (some p) none).1.activate (some p) none =
      ((s.activate (some p) none).1, [], .resolved ())) ∧
    ((s.activate (some p) none).2.1 = [] ∨
      (s.activate (some p) none).2.1 = s.listeners.map (fun l => (l, some p))) := by
  refine ⟨fun h => by simp [AuthManager.activate, h], ?_, ?_⟩
  · cases hc : refEq s.activeProvider (some p) with
    | true => simp [AuthManager.activate, hc]
    | false =>
      have h2 : refEq (ActiveState.active p) (some p) = true := by simp [refEq]
      simp [AuthManager.activate, hc, h2]
  · cases hc : refEq s.activeProvider (some p) with
    | true => simp [AuthManager.activate, hc]
    | false => simp [AuthManager.activate, hc]

/-- Witness for C4: re-activating the already-active provider returns the
state unchanged with no events. -/
theorem C4_witness :
    AuthManager.activate
      { AuthManager.init [7] with activeProvider := ActiveState.active guestProvider }
      (some guestProvider) none =
      ({ AuthManager.init [7] with activeProvider := ActiveState.active guestProvider },
        [], Settled.resolved ()) :=
  (C4_activate_idempotent
    { AuthManager.init [7] with activeProvider := ActiveState.active guestProvider }
    guestProvider none).1 (by decide)

/-- C6: `register(type)` throws exactly when `type` is already registered
or currently initializing, and otherwise only adds `type` to the
initializing set (the setup/clear pair it returns is modelled by
`AuthManager.setup`/`AuthManager.clear` at the same `type`). -/
theorem C6_register_spec (s : AuthManager) (t : String) :
    (s.register t = .rejected s!"Auth Provider {t} is already registered" ↔
      (t ∈ s.initializing ∨ mapHas s.providers t = true)) ∧
    ((t ∉ s.initializing ∧ mapHas s.providers t = false) →
      s.register t = .resolved { s with initializing := s.initializing ++ [t] }) := by
  constructor
  · constructor
    · intro hreg
      by_contra hno
      rw [AuthManager.register.eq_def, if_neg hno] at hreg
      exact Settled.noConfusion hreg
    · intro h
      rw [AuthManager.register.eq_def, if_pos h]
  · rintro ⟨h1, h2⟩
    have hno : ¬(t ∈ s.initializing ∨ mapHas s.providers t = true) := by
      rintro (h | h)
      · exact h1 h
      · rw [h2] at h; exact Bool.noConfusion h
    rw [AuthManager.register.eq_def, if_neg hno]

/-- Witness for C6: registering "guest" on a fresh manager succeeds and
marks it initializing. -/
theorem C6_witness :
    AuthManager.register (AuthManager.init []) "guest" =
      Settled.resolved { AuthManager.init [] with initializing := ["guest"] } :=
  (C6_register_spec (AuthManager.init []) "guest").2 ⟨by decide, rfl⟩

/-- C7 (code bug): with two subscribers (references 1 then 2), calling the
unsubscribe closure of the first leaves an empty listener list —
`splice(idx)` deletes to the end of the array — so the still-subscribed
second listener receives no subsequent notification. -/
theorem C7_unsubscribe_bug :
    (((AuthManager.init []).subscribe 1).subscribe 2).unsubscribe 1 =
      AuthManager.init [] ∧
    (AuthManager.activate
      ((((AuthManager.init []).subscribe 1).subscribe 2).unsubscribe 1)
      (some guestProvider) none).2.1 = [] := by decide

/-- C8 counterexample: with provider "guest" active and registration
"sso" still initializing, `getActive()` returns the active provider, not
the unresolved marker `undefined` the claim requires. -/
theorem C8_counterexample :
    (AuthManager.run (AuthManager.init [0])
      [Op.register "guest", Op.setup "guest" guestProvider true,
        Op.register "sso"]).1.initializing = ["sso"] ∧
    AuthManager.getActive (AuthManager.run (AuthManager.init [0])
      [Op.register "guest", Op.setup "guest" guestProvider true,
        Op.register "sso"]).1 = ActiveState.active guestProvider ∧
    ActiveState.active guestProvider ≠ ActiveState.unset := by decide

/-- C8 amended: while any registration is initializing `getActive()`
never returns the settled-none marker `null`, and it returns the
unresolved marker `undefined` provided no provider is active. -/
theorem C8_amended_pending_never_null (s : AuthManager)
    (hinit : s.initializing ≠ []) :
    s.getActive ≠ ActiveState.settledNull ∧
    ((∀ p, s.activeProvider ≠ ActiveState.active p) →
      s.getActive = ActiveState.unset) := by
  have hlen : s.initializing.length ≠ 0 :=
    fun h => hinit (List.length_eq_zero.mp h)
  cases hs : s.activeProvider with
  | active p =>
    refine ⟨by simp [AuthManager.getActive, hs], fun hnp => absurd rfl (hnp p)⟩
  | unset =>
    have hg : s.getActive = ActiveState.unset := by
      simp only [AuthManager.getActive, hs]
      exact if_pos (Or.inr hlen)
    exact ⟨by simp [hg], fun _ => hg⟩
  | settledNull =>
    have hg : s.getActive = ActiveState.unset := by
      simp only [AuthManager.getActive, hs]
      exact if_pos (Or.inr hlen)
    exact ⟨by simp [hg], fun _ => hg⟩

/-- Witness for the amended C8: one pending registration, nothing active:
`getActive()` is the unresolved marker. -/
theorem C8_witness :
    AuthManager.getActive { AuthManager.init [] with initializing := ["sso"] } =
      ActiveState.unset :=
  (C8_amended_pending_never_null
    { AuthManager.init [] with initializing := ["sso"] } (by decide)).2
    (fun _ h => ActiveState.noConfusion h)

/-- C9: the callable returned by `useAuthLogin(type)` leaves the manager
state untouched, rejects with the descriptive message when no provider is
registered under `type`, and otherwise settles exactly as the provider's
`login()` does. -/
theorem C9_login_trigger (t : String) (s : AuthManager) :
    (authLoginTrigger t s).2 = s ∧
    (mapGet s.providers t = none →
      (authLoginTrigger t s).1 = .rejected s!"No provider found for {t}") ∧
    (∀ p, mapGet s.providers t = some p →
      (authLoginTrigger t s).1 = p.loginResult) := by
  refine ⟨?_, fun h => by simp [authLoginTrigger, h], fun p h => by simp [authLoginTrigger, h]⟩
  cases h : mapGet s.providers t <;> simp [authLoginTrigger, h]

/-- Witness for C9: login for the unregistered "oauth" rejects with the
descriptive error; login for the registered "guest" yields its profile. -/
theorem C9_witness :
    (authLoginTrigger "oauth" sGuest).1 =
      Settled.rejected "No provider found for oauth" ∧
    (authLoginTrigger "guest" sGuest).1 = Settled.resolved guestProfile :=
  ⟨(C9_login_trigger "oauth" sGuest).2.1 rfl,
    (C9_login_trigger "guest" sGuest).2.2 guestProvider rfl⟩

/-- C10 (implicit): `activate` performs no registry-membership check:
a provider that is not currently active and appears nowhere in the
registry is still set active, every subscriber is notified with it, and
`getActive()` then returns it. -/
theorem C10_activate_unregistered (s : AuthManager) (p : AuthProvider)
    (hne : refEq s.activeProvider (some p) = false)
    (hunreg : ∀ t, mapGet s.providers t ≠ some p) :
    s.activate (some p) none =
      ({ s with activeProvider := ActiveState.active p },
        s.listeners.map (fun l => (l, some p)), .resolved ()) ∧
    AuthManager.getActive { s with activeProvider := ActiveState.active p } =
      ActiveState.active p := by
  exact ⟨by simp [AuthManager.activate, hne], by simp [AuthManager.getActive]⟩

/-- Witness for C10: activating the never-registered guest provider on a
fresh manager with one subscriber sets it active and notifies. -/
theorem C10_witness :
    AuthManager.activate (AuthManager.init [3]) (some guestProvider) none =
      ({ AuthManager.init [3] with activeProvider := ActiveState.active guestProvider },
        [(3, some guestProvider)], Settled.resolved ()) :=
  (C10_activate_unregistered (AuthManager.init [3]) guestProvider (by decide)
    (fun t h => by simp [mapGet, AuthManager.init] at h)).1

/-- C5: over every sequence of `register`/`setup`/`clear` calls from a
fresh manager, the registry never holds two entries for the same type
key, and no key is simultaneously initializing and registered. -/
theorem C5_registry_invariant (L : List Nat) (ops : List Op) :
    ((AuthManager.run (AuthManager.init L) ops).1.providers.map Prod.fst).Nodup ∧
    ∀ t, t ∈ (AuthManager.run (AuthManager.init L) ops).1.initializing →
      mapHas (AuthManager.run (AuthManager.init L) ops).1.providers t = false :=
  RegInv_run (AuthManager.init L) ops
    ⟨List.nodup_nil, fun t ht => absurd ht (List.not_mem_nil t)⟩

/-- Witness for C5: after `register("a")`, "a" is initializing and not in
the registry. -/
theorem C5_witness :
    "a" ∈ (AuthManager.run (AuthManager.init []) [Op.register "a"]).1.initializing ∧
    mapHas (AuthManager.run (AuthManager.init []) [Op.register "a"]).1.providers "a" =
      false :=
  ⟨by decide, (C5_registry_invariant [] [Op.register "a"]).2 "a" (by decide)⟩

/-! Lemmas tracking the settle-to-null notification across a scripted
sequence, for the claim about the last pending registration. -/

theorem run_append (s : AuthManager) (a b : List Op) :
    s.run (a ++ b) =
      (((s.run a).1.run b).1, (s.run a).2 ++ ((s.run a).1.run b).2) := by
  induction a generalizing s with
  | nil => simp [AuthManager.run]
  | cons op ops ih =>
    simp only [List.cons_append, AuthManager.run, List.append_eq]
    rw [ih]
    simp [List.append_assoc]

/-- Effect of one non-activating scripted call on the active-provider
field and the emitted events: listeners are preserved; from the
never-assigned state it either stays unassigned with no events or settles
to `null` notifying every listener once; from the settled-`null` state it
stays there emitting nothing. -/
theorem step_noact (s : AuthManager) (op : Op) (hop : noActivation op = true) :
    (s.step op).1.listeners = s.listeners ∧
    (s.activeProvider = ActiveState.unset →
      ((s.step op).1.activeProvider = ActiveState.unset ∧ (s.step op).2 = []) ∨
      ((s.step op).1.activeProvider = ActiveState.settledNull ∧
        (s.step op).2 = s.listeners.map (fun l => (l, (none : Option AuthProvider))))) ∧
    (s.activeProvider = ActiveState.settledNull →
      (s.step op).1.activeProvider = ActiveState.settledNull ∧ (s.step op).2 = []) := by
  cases op with
  | register t =>
    by_cases hc : t ∈ s.initializing ∨ mapHas s.providers t = true
    · simp only [AuthManager.step, AuthManager.register, if_pos hc]
      refine ⟨?_, fun h => Or.inl ⟨?_, ?_⟩, fun h => ⟨?_, ?_⟩⟩ <;>
        first | exact h | rfl | trivial
    · simp only [AuthManager.step, AuthManager.register, if_neg hc]
      refine ⟨?_, fun h => Or.inl ⟨?_, ?_⟩, fun h => ⟨?_, ?_⟩⟩ <;>
        first | exact h | rfl | trivial
  | setup t p active =>
    cases active with
    | true => exact absurd hop (by simp [noActivation])
    | false =>
      simp only [AuthManager.step, AuthManager.setup, Bool.false_eq_true, if_false]
      split
      · refine ⟨(activate_fields _ _ _).2.2, fun h => ?_, fun h => ?_⟩
        · have heq := activate_null_unset
            { s with providers := mapSet s.providers t p,
                     initializing := setDelete s.initializing t } h
          rw [heq]
          exact Or.inr ⟨rfl, rfl⟩
        · have heq := activate_null_settled
            { s with providers := mapSet s.providers t p,
                     initializing := setDelete s.initializing t } h
          rw [heq]
          exact ⟨h, rfl⟩
      · refine ⟨?_, fun h => Or.inl ⟨?_, ?_⟩, fun h => ⟨?_, ?_⟩⟩ <;>
          first | exact h | rfl | trivial
  | clear t err =>
    simp only [AuthManager.step, AuthManager.clear]
    split
    · refine ⟨(activate_fields _ _ _).2.2, fun h => ?_, fun h => ?_⟩
      · have heq := activate_null_unset
          { s with initializing := setDelete s.initializing t,
                   providers := mapDelete s.providers t } h
        rw [heq]
        exact Or.inr ⟨rfl, rfl⟩
      · have heq := activate_null_settled
          { s with initializing := setDelete s.initializing t,
                   providers := mapDelete s.providers t } h
        rw [heq]
        exact ⟨h, rfl⟩
    · refine ⟨?_, fun h => Or.inl ⟨?_, ?_⟩, fun h => ⟨?_, ?_⟩⟩ <;>
        first | exact h | rfl | trivial

/-- Accumulated effect of a sequence of non-activating scripted calls:
the settle-to-null notification batch is emitted at most once over the
whole run, and only on the transition out of the never-assigned state. -/
theorem run_noact (L : List Nat) (ops : List Op) :
    (∀ op ∈ ops, noActivation op = true) →
    ∀ s : AuthManager, s.listeners = L →
      ((s.activeProvider = ActiveState.unset →
        (s.run ops).1.listeners = L ∧
        (((s.run ops).1.activeProvider = ActiveState.unset ∧ (s.run ops).2 = []) ∨
         ((s.run ops).1.activeProvider = ActiveState.settledNull ∧
           (s.run ops).2 = L.map (fun l => (l, (none : Option AuthProvider)))))) ∧
       (s.activeProvider = ActiveState.settledNull →
        (s.run ops).1.listeners = L ∧
        (s.run ops).1.activeProvider = ActiveState.settledNull ∧
        (s.run ops).2 = [])) := by
  induction ops with
  | nil =>
    intro _ s hL
    exact ⟨fun h => ⟨hL, Or.inl ⟨h, rfl⟩⟩, fun h => ⟨hL, h, rfl⟩⟩
  | cons op ops ih =>
    intro hops s hL
    have hop : noActivation op = true := hops op (List.mem_cons_self op ops)
    have hops' : ∀ o ∈ ops, noActivation o = true :=
      fun o ho => hops o (List.mem_cons_of_mem op ho)
    obtain ⟨hlis, hunset, hsettled⟩ := step_noact s op hop
    have hlis' : (s.step op).1.listeners = L := hlis.trans hL
    simp only [AuthManager.run]
    constructor
    · intro h
      rcases hunset h with ⟨hu, hev⟩ | ⟨hsn, hev⟩
      · obtain ⟨hl2, hdisj⟩ := (ih hops' (s.step op).1 hlis').1 hu
        refine ⟨hl2, ?_⟩
        rcases hdisj with ⟨ha, he⟩ | ⟨ha, he⟩
        · exact Or.inl ⟨ha, by simp [hev, he]⟩
        · exact Or.inr ⟨ha, by simp [hev, he]⟩
      · obtain ⟨hl2, ha, he⟩ := (ih hops' (s.step op).1 hlis').2 hsn
        refine ⟨hl2, Or.inr ⟨ha, ?_⟩⟩
        rw [hev, he, hL]
        simp
    · intro h
      obtain ⟨hsn, hev⟩ := hsettled h
      obtain ⟨hl2, ha, he⟩ := (ih hops' (s.step op).1 hlis').2 hsn
      exact ⟨hl2, ha, by simp [hev, he]⟩

/-- Effect of a `setup(p, false)` or `clear()` call that empties the
initializing set: from the never-assigned state it settles the active
field to `null` and notifies every listener once with `null`; from the
already-settled state it is silent. -/
theorem settle_step (s : AuthManager) (op : Op) (t : String)
    (hop : (∃ p, op = Op.setup t p false) ∨ (∃ err, op = Op.clear t err))
    (hempty : setDelete s.initializing t = []) :
    (s.step op).1.listeners = s.listeners ∧
    (s.step op).1.initializing = [] ∧
    (s.activeProvider = ActiveState.unset →
      (s.step op).1.activeProvider = ActiveState.settledNull ∧
      (s.step op).2 = s.listeners.map (fun l => (l, (none : Option AuthProvider)))) ∧
    (s.activeProvider = ActiveState.settledNull →
      (s.step op).1.activeProvider = ActiveState.settledNull ∧
      (s.step op).2 = []) := by
  rcases hop with ⟨p, rfl⟩ | ⟨err, rfl⟩ <;>
    cases hs : s.activeProvider <;>
      simp [AuthManager.step, AuthManager.setup, AuthManager.clear, AuthManager.activate,
        refEq, isTruthy, hs, hempty, Bool.false_eq_true]

/-- C2 counterexample: `register("sso")` then `clear()` settles the last
(and only) pending registration with no provider ever activated, yet
`getActive()` afterwards returns the unresolved marker `undefined` (the
registry is empty), not the settled-none marker `null` the claim
requires; the single notification with `null` does occur. -/
theorem C2_counterexample :
    (AuthManager.run (AuthManager.init [0])
      [Op.register "sso", Op.clear "sso" none]).1.initializing = [] ∧
    (AuthManager.run (AuthManager.init [0])
      [Op.register "sso", Op.clear "sso" none]).2 =
      [(0, (none : Option AuthProvider))] ∧
    AuthManager.getActive (AuthManager.run (AuthManager.init [0])
      [Op.register "sso", Op.clear "sso" none]).1 = ActiveState.unset ∧
    ActiveState.unset ≠ ActiveState.settledNull := by decide

/-- C2 amended: over any register/setup/clear sequence that never
activates a provider and whose last call settles the last pending
registration (empties the initializing set) via `setup(p, false)` or
`clear()`, the active field ends settled to `null`, exactly one
notification batch is emitted over the whole run — each subscriber
attached before settling is called exactly once, with `null` — and
`getActive()` afterwards returns `null` when the registry is nonempty and
`undefined` when it is empty. -/
theorem C2_amended_settle (L : List Nat) (ops1 : List Op) (lastOp : Op) (t : String)
    (hnoact : ∀ op ∈ ops1, noActivation op = true)
    (hform : (∃ p, lastOp = Op.setup t p false) ∨ (∃ err, lastOp = Op.clear t err))
    (hsettle : setDelete (AuthManager.run (AuthManager.init L) ops1).1.initializing t = []) :
    (AuthManager.run (AuthManager.init L) (ops1 ++ [lastOp])).1.activeProvider =
      ActiveState.settledNull ∧
    (AuthManager.run (AuthManager.init L) (ops1 ++ [lastOp])).1.initializing = [] ∧
    (AuthManager.run (AuthManager.init L) (ops1 ++ [lastOp])).2 =
      L.map (fun l => (l, (none : Option AuthProvider))) ∧
    AuthManager.getActive (AuthManager.run (AuthManager.init L) (ops1 ++ [lastOp])).1 =
      (if (AuthManager.run (AuthManager.init L) (ops1 ++ [lastOp])).1.providers.length = 0
        then ActiveState.unset else ActiveState.settledNull) := by
  have hga : ∀ m : AuthManager, m.activeProvider = ActiveState.settledNull →
      m.initializing = [] →
      m.getActive = (if m.providers.length = 0 then ActiveState.unset
        else ActiveState.settledNull) := by
    intro m hm hi
    simp [AuthManager.getActive, hm, hi]
  have hF1 : (AuthManager.run (AuthManager.init L) (ops1 ++ [lastOp])).1 =
      ((AuthManager.run (AuthManager.init L) ops1).1.step lastOp).1 := by
    rw [run_append]
    simp [AuthManager.run]
  have hF2 : (AuthManager.run (AuthManager.init L) (ops1 ++ [lastOp])).2 =
      (AuthManager.run (AuthManager.init L) ops1).2 ++
        ((AuthManager.run (AuthManager.init L) ops1).1.step lastOp).2 := by
    rw [run_append]
    simp [AuthManager.run]
  obtain ⟨hsl, hsi, hsu, hss⟩ :=
    settle_step (AuthManager.run (AuthManager.init L) ops1).1 lastOp t hform hsettle
  obtain ⟨hl1, hdisj⟩ := (run_noact L ops1 hnoact (AuthManager.init L) rfl).1 rfl
  rcases hdisj with ⟨ha, he⟩ | ⟨ha, he⟩
  · obtain ⟨hact, hev⟩ := hsu ha
    have h1 := hF1 ▸ hact
    have h2 : (AuthManager.run (AuthManager.init L) (ops1 ++ [lastOp])).1.initializing =
        [] := hF1 ▸ hsi
    refine ⟨h1, h2, ?_, hga _ h1 h2⟩
    rw [hF2, he, hev, hl1]
    simp
  · obtain ⟨hact, hev⟩ := hss ha
    have h1 := hF1 ▸ hact
    have h2 : (AuthManager.run (AuthManager.init L) (ops1 ++ [lastOp])).1.initializing =
        [] := hF1 ▸ hsi
    refine ⟨h1, h2, ?_, hga _ h1 h2⟩
    rw [hF2, he, hev]
    simp

/-- Witness for the amended C2: register "guest", then settle it with
`setup(guestProvider, false)`: the field settles to `null` and the single
subscriber is notified exactly once, with `null`. -/
theorem C2_witness :
    (AuthManager.run (AuthManager.init [0])
      [Op.register "guest", Op.setup "guest" guestProvider false]).1.activeProvider =
      ActiveState.settledNull ∧
    (AuthManager.run (AuthManager.init [0])
      [Op.register "guest", Op.setup "guest" guestProvider false]).2 =
      [(0, (none : Option AuthProvider))] :=
  ⟨(C2_amended_settle [0] [Op.register "guest"]
      (Op.setup "guest" guestProvider false) "guest" (by decide)
      (Or.inl ⟨guestProvider, rfl⟩) (by decide)).1,
    (C2_amended_settle [0] [Op.register "guest"]
      (Op.setup "guest" guestProvider false) "guest" (by decide)
      (Or.inl ⟨guestProvider, rfl⟩) (by decide)).2.2.1⟩

end Auth
